import Mathlib

/-!
Shallow embedding of the batch media job orchestration subsystem of the
ZayasAgents repository: the validation utilities and upload handlers and the
transcription / batch-processing managers (src/unnamed/part_000), and the
translation manager (src/voice-tools/js/translation.js).  DOM rendering is out
of scope; the embedding keeps each manager's state fields, the notification
events it emits, and the strings and numbers it computes.
-/

namespace VoiceTools

/-- A selected file as the handlers see it: name, size in bytes, MIME type. -/
structure UploadedFile where
  name : String
  size : ℕ
  type : String
  deriving DecidableEq

/-- Fuel-driven floor logarithm base 1024; with fuel ≥ bytes this computes
Math.floor(Math.log(bytes) / Math.log(1024)) from
AudioTranslateUtils.formatFileSize. -/
def floorLog1024Aux : ℕ → ℕ → ℕ
  | 0, _ => 0
  | fuel + 1, bytes => if bytes < 1024 then 0 else floorLog1024Aux fuel (bytes / 1024) + 1

def floorLog1024 (bytes : ℕ) : ℕ :=
  floorLog1024Aux bytes bytes

/-- The number of hundredths obtained by rounding bytes / 1024 ^ i to two
decimals, half up: models (bytes / Math.pow(1024, i)).toFixed(2). -/
def roundedHundredths (bytes i : ℕ) : ℕ :=
  (200 * bytes + 1024 ^ i) / (2 * 1024 ^ i)

/-- Decimal rendering of a quantity of hundredths with trailing zeros dropped:
models parseFloat applied to the toFixed(2) string. -/
def renderHundredths (n : ℕ) : String :=
  let ip := n / 100
  let fr := n % 100
  if fr = 0 then toString ip
  else if fr % 10 = 0 then toString ip ++ "." ++ toString (fr / 10)
  else if fr < 10 then toString ip ++ ".0" ++ toString fr
  else toString ip ++ "." ++ toString fr

def sizeUnits : List String := ["Bytes", "KB", "MB", "GB"]

/-- AudioTranslateUtils.formatFileSize. -/
def formatFileSize (bytes : ℕ) : String :=
  if bytes = 0 then "0 Bytes"
  else
    let i := floorLog1024 bytes
    renderHundredths (roundedHundredths bytes i) ++ " " ++ sizeUnits.getD i "undefined"

structure ValidationResult where
  isValid : Bool
  errors : List String
  deriving DecidableEq

/-- AudioTranslateUtils.validateFile. -/
def validateFile (file : UploadedFile) (allowedTypes : List String) (maxSize : ℕ) :
    ValidationResult :=
  let typeErrors :=
    if allowedTypes.contains file.type then []
    else ["File type not supported. Allowed types: " ++ String.intercalate ", " allowedTypes]
  let sizeErrors :=
    if maxSize < file.size then ["File too large. Maximum size: " ++ formatFileSize maxSize]
    else []
  let errors := typeErrors ++ sizeErrors
  { isValid := errors.isEmpty, errors := errors }

/-- One AudioTranslateUtils.showNotification event: message and kind. -/
structure Notification where
  message : String
  kind : String
  deriving DecidableEq

def allowedAudioTypes : List String := ["audio/mpeg", "audio/wav", "audio/m4a", "audio/ogg"]

/-- FileUploadManager.handleFileSelection, single-file path (100 MB ceiling):
the notification events it emits. -/
def handleFileSelection (files : List UploadedFile) : List Notification :=
  match files with
  | [] => []
  | file :: _ =>
    let validation := validateFile file allowedAudioTypes (100 * 1024 * 1024)
    if validation.isValid then [⟨"File uploaded successfully!", "success"⟩]
    else [⟨String.intercalate ", " validation.errors, "error"⟩]

/-- The hasErrors accumulator of FileUploadManager.handleBatchFileSelection:
set by any per-file validation failure (50 MB ceiling), by the 500 MB
total-size check, or by the 10-file count check. -/
def batchSelectionHasErrors (files : List UploadedFile) : Bool :=
  (files.any fun f => !(validateFile f allowedAudioTypes (50 * 1024 * 1024)).isValid)
    || decide (500 * 1024 * 1024 < (files.map fun f => f.size).sum)
    || decide (10 < files.length)

/-- FileUploadManager.handleBatchFileSelection (50 MB per file, 500 MB total,
10 files): the hasErrors flag and the notification events it emits; the
per-file error texts only go into the file-list markup. -/
def handleBatchFileSelection (files : List UploadedFile) : Bool × List Notification :=
  if files.isEmpty then (false, [])
  else
    (batchSelectionHasErrors files,
      if batchSelectionHasErrors files then []
      else [⟨toString files.length ++ " files uploaded successfully!", "success"⟩])

/-- ASCII lowering of one character; models what
String.prototype.toLowerCase does on the language names in the table. -/
def asciiLower (c : Char) : Char :=
  if 'A' ≤ c ∧ c ≤ 'Z' then Char.ofNat (c.toNat + 32) else c

/-- languageData.name.toLowerCase() as used by createTranslationOutput. -/
def lowercaseString (s : String) : String :=
  ⟨s.data.map asciiLower⟩

example : formatFileSize (100 * 1024 * 1024) = "100 MB" := by decide
example : formatFileSize 0 = "0 Bytes" := by decide
example : formatFileSize 1536 = "1.5 KB" := by decide
example : lowercaseString "German" = "german" := by decide

/-- The record returned by TranslationManager.getLanguageData; the flag emoji
field is presentational and omitted. -/
structure LanguageData where
  name : String
  deriving DecidableEq

/-- TranslationManager.getLanguageData. -/
def getLanguageData (langCode : String) : LanguageData :=
  if langCode = "de" then ⟨"German"⟩
  else if langCode = "fr" then ⟨"French"⟩
  else if langCode = "ru" then ⟨"Russian"⟩
  else if langCode = "zh" then ⟨"Chinese"⟩
  else if langCode = "ja" then ⟨"Japanese"⟩
  else if langCode = "hi" then ⟨"Hindi"⟩
  else if langCode = "ar" then ⟨"Arabic"⟩
  else if langCode = "it" then ⟨"Italian"⟩
  else ⟨"Unknown"⟩

/-- The data-language attribute written by createTranslationOutput:
languageData.name.toLowerCase(). -/
def audioPlayerLanguage (d : LanguageData) : String :=
  lowercaseString d.name

/-- The filename built by TranslationManager.handleTranslationDownload. -/
def translationDownloadFilename (language format : String) : String :=
  "translation_" ++ language ++ "." ++ format

/-- The filename built by TranscriptionManager.handleDownload. -/
def transcriptionDownloadFilename (format : String) : String :=
  "transcription." ++ format

/-- The filename a download click produces for the player rendered for
langCode: bindEvents reads the data-language attribute the player markup was
created with and passes it to handleTranslationDownload. -/
def translationFilenameForCode (langCode format : String) : String :=
  translationDownloadFilename (audioPlayerLanguage (getLanguageData langCode)) format

/-- The data-lang values offered by the language-option grid (the keys of the
getLanguageData table). -/
def knownLanguageCodes : List String := ["de", "fr", "ru", "zh", "ja", "hi", "ar", "it"]

/-- The download-button formats of one createTranslationOutput block. -/
def translationFormats : List String := ["mp3", "wav", "srt"]

/-- The (data-language, format) pairs of the download buttons rendered by
showTranslationResults for the selected codes. -/
def translationArtifacts (selected : List String) : List (String × String) :=
  selected.flatMap fun code =>
    translationFormats.map fun fmt => (audioPlayerLanguage (getLanguageData code), fmt)

/-- The language-option click handler of setupLanguageSelection: a Set toggle,
modelled on the insertion-ordered duplicate-free list of selected codes
(Set.add appends, Set.delete removes the entry). -/
def toggleLanguage (selected : List String) (lang : String) : List String :=
  if lang ∈ selected then selected.erase lang else selected ++ [lang]

/-- Progress state of simulateTranslationProcess and
simulateTranscriptionProcess: the accumulated percentage and whether the
interval was cleared and the promise resolved. -/
structure SimProgress where
  progress : ℚ
  completed : Bool
  deriving DecidableEq

/-- One setInterval tick: progress += delta, clamp at 100 and resolve.  delta
models the Math.random() * 10 (translation) or * 15 (transcription) draw; once
completed the interval is cleared, so further deltas have no effect. -/
def progressTick (s : SimProgress) (delta : ℚ) : SimProgress :=
  if s.completed then s
  else
    let p := s.progress + delta
    if 100 ≤ p then { progress := 100, completed := true }
    else { progress := p, completed := false }

def runProgress (s : SimProgress) (ds : List ℚ) : SimProgress :=
  ds.foldl progressTick s

def initialProgress : SimProgress := { progress := 0, completed := false }

structure TranslationManagerState where
  selectedLanguages : List String
  isProcessing : Bool
  deriving DecidableEq

/-- TranslationManager.startTranslation: the guard, the validation
notifications, and the outcome given the backend delta stream ds. -/
def startTranslation (s : TranslationManagerState) (hasFile : Bool) (ds : List ℚ) :
    TranslationManagerState × List Notification :=
  if s.isProcessing then (s, [])
  else if !hasFile then (s, [⟨"Please select an audio file first.", "error"⟩])
  else if s.selectedLanguages.isEmpty then
    (s, [⟨"Please select at least one target language.", "error"⟩])
  else if (runProgress initialProgress ds).completed then
    ({ s with isProcessing := false }, [⟨"Translation completed successfully!", "success"⟩])
  else
    ({ s with isProcessing := true }, [])

structure TranscriptionManagerState where
  isProcessing : Bool
  deriving DecidableEq

/-- TranscriptionManager.startTranscription. -/
def startTranscription (s : TranscriptionManagerState) (hasFile : Bool) (ds : List ℚ) :
    TranscriptionManagerState × List Notification :=
  if s.isProcessing then (s, [])
  else if !hasFile then (s, [⟨"Please select an audio file first.", "error"⟩])
  else if (runProgress initialProgress ds).completed then
    ({ s with isProcessing := false }, [⟨"Transcription completed successfully!", "success"⟩])
  else
    ({ s with isProcessing := true }, [])

/-- An entry of BatchProcessingManager.currentBatch as getBatchSummary reads
it: name, size and status. -/
structure BatchEntry where
  name : String
  size : ℕ
  status : String
  deriving DecidableEq

structure BatchManagerState where
  currentBatch : List BatchEntry
  isProcessing : Bool
  deriving DecidableEq

/-- The BatchProcessingManager constructor. -/
def initialBatchManager : BatchManagerState :=
  { currentBatch := [], isProcessing := false }

structure BatchSummary where
  totalFiles : ℕ
  processedFiles : ℕ
  failedFiles : ℕ
  totalSize : ℕ
  deriving DecidableEq

/-- BatchProcessingManager.getBatchSummary. -/
def getBatchSummary (s : BatchManagerState) : BatchSummary :=
  { totalFiles := s.currentBatch.length
    processedFiles := (s.currentBatch.filter fun f => f.status == "completed").length
    failedFiles := (s.currentBatch.filter fun f => f.status == "failed").length
    totalSize := (s.currentBatch.map fun f => f.size).sum }

/-- State of the setInterval loop in
BatchProcessingManager.simulateBatchProcess. -/
structure BatchSimState where
  progress : ℚ
  currentFile : ℕ
  done : Bool
  deriving DecidableEq

/-- The progress expression of one tick of simulateBatchProcess:
(currentFile * progressPerFile) + (fileProgress * progressPerFile / 100)
with progressPerFile = 100 / filesProcessed. -/
def batchTickProgress (filesProcessed currentFile : ℕ) (fileProgress : ℚ) : ℚ :=
  (currentFile : ℚ) * (100 / (filesProcessed : ℚ))
    + fileProgress * (100 / (filesProcessed : ℚ)) / 100

/-- One setInterval tick of simulateBatchProcess.  r models the
Math.random() * 20 draw (so a real run has 0 ≤ r < 20); filesProcessed is
Math.min(fileCount, 10); once done the interval is cleared, so further ticks
have no effect. -/
def batchSimStep (fileCount : ℕ) (s : BatchSimState) (r : ℚ) : BatchSimState :=
  if s.done then s
  else
    let filesProcessed := min fileCount 10
    let fileProgress := r
    let progress := batchTickProgress filesProcessed s.currentFile fileProgress
    let nextFile :=
      if 95 ≤ fileProgress ∧ s.currentFile < filesProcessed - 1 then s.currentFile + 1
      else s.currentFile
    if 100 ≤ progress then { progress := 100, currentFile := nextFile, done := true }
    else { progress := progress, currentFile := nextFile, done := false }

def batchSimRun (fileCount : ℕ) (s : BatchSimState) (rs : List ℚ) : BatchSimState :=
  rs.foldl (batchSimStep fileCount) s

def initialBatchSim : BatchSimState :=
  { progress := 0, currentFile := 0, done := false }

/-- BatchProcessingManager.processBatch up to its suspension point: the
isProcessing guard, the empty-selection notification, and setting
isProcessing := true before awaiting simulateBatchProcess.  The code after the
await (results, success notification, the finally block resetting
isProcessing) only runs if the simulation promise resolves. -/
def processBatch (s : BatchManagerState) (selectedFiles : List UploadedFile) :
    BatchManagerState × List Notification :=
  if s.isProcessing then (s, [])
  else if selectedFiles.isEmpty then (s, [⟨"Please select files to process.", "error"⟩])
  else ({ s with isProcessing := true }, [])

/-- The operations a caller can invoke on a BatchProcessingManager after
construction. -/
inductive BatchOp where
  | processBatch (selectedFiles : List UploadedFile)
  | resetBatch
  | handleBatchDownload (format : String)
  deriving DecidableEq

/-- The state effect of each operation: processBatch as above, resetBatch sets
currentBatch to the empty list (its other statements only touch the DOM),
handleBatchDownload only emits notifications. -/
def applyBatchOp (s : BatchManagerState) (op : BatchOp) : BatchManagerState :=
  match op with
  | .processBatch files => (processBatch s files).1
  | .resetBatch => { s with currentBatch := [] }
  | .handleBatchDownload _ => s

def runBatchOps (ops : List BatchOp) : BatchManagerState :=
  ops.foldl applyBatchOp initialBatchManager

theorem runProgress_completed (ds : List ℚ) (s : SimProgress) (h : s.completed = true) :
    runProgress s ds = s := by
  induction ds with
  | nil => rfl
  | cons d ds ih =>
    have hstep : progressTick s d = s := by simp [progressTick, h]
    calc runProgress s (d :: ds) = runProgress (progressTick s d) ds := rfl
    _ = runProgress s ds := by rw [hstep]
    _ = s := ih

theorem runProgress_char (ds : List ℚ) :
    ∀ p : ℚ, p < 100 → (∀ d ∈ ds, 0 ≤ d) →
      (runProgress ⟨p, false⟩ ds).progress = min (p + ds.sum) 100
      ∧ ((runProgress ⟨p, false⟩ ds).completed = true ↔ 100 ≤ p + ds.sum) := by
  induction ds with
  | nil =>
    intro p hp _
    constructor
    · simp [runProgress, min_eq_left (le_of_lt hp)]
    · simp [runProgress]
      linarith
  | cons d ds ih =>
    intro p hp hnn
    have hd : 0 ≤ d := hnn d (by simp)
    have hds : ∀ x ∈ ds, 0 ≤ x := fun x hx => hnn x (by simp [hx])
    have hsum : 0 ≤ ds.sum := List.sum_nonneg hds
    by_cases hc : 100 ≤ p + d
    · have hstep : progressTick ⟨p, false⟩ d = ⟨100, true⟩ := by
        simp [progressTick, hc]
      have hrun : runProgress ⟨p, false⟩ (d :: ds) = ⟨100, true⟩ := by
        calc runProgress ⟨p, false⟩ (d :: ds) = runProgress (progressTick ⟨p, false⟩ d) ds := rfl
        _ = runProgress ⟨100, true⟩ ds := by rw [hstep]
        _ = ⟨100, true⟩ := runProgress_completed ds _ rfl
      rw [hrun, List.sum_cons]
      constructor
      · have h100 : 100 ≤ p + (d + ds.sum) := by linarith
        simp [min_eq_right h100]
      · simp
        linarith
    · push_neg at hc
      have hstep : progressTick ⟨p, false⟩ d = ⟨p + d, false⟩ := by
        simp [progressTick, not_le.mpr hc]
      have hrun : runProgress ⟨p, false⟩ (d :: ds) = runProgress ⟨p + d, false⟩ ds := by
        calc runProgress ⟨p, false⟩ (d :: ds) = runProgress (progressTick ⟨p, false⟩ d) ds := rfl
        _ = runProgress ⟨p + d, false⟩ ds := by rw [hstep]
      obtain ⟨h1, h2⟩ := ih (p + d) hc hds
      rw [hrun, List.sum_cons]
      constructor
      · rw [h1]
        ring_nf
      · rw [h2]
        constructor <;> intro <;> linarith

/-- Claim C3: for a Running job and any finite sequence of non-negative
progress increments, progressPercent is non-decreasing across every prefix,
the job completes exactly when the running total first reaches or exceeds
100, and the reported value is clamped to exactly 100 with the excess of the
final increment discarded. -/
theorem translation_progress_monotone_clamped (ds : List ℚ) (h : ∀ d ∈ ds, 0 ≤ d) :
    ∀ pre suf : List ℚ, ds = pre ++ suf →
      (runProgress initialProgress pre).progress = min pre.sum 100
      ∧ ((runProgress initialProgress pre).completed = true ↔ 100 ≤ pre.sum)
      ∧ (runProgress initialProgress pre).progress ≤ (runProgress initialProgress ds).progress := by
  intro pre suf hsplit
  subst hsplit
  have hpre : ∀ d ∈ pre, 0 ≤ d := fun d hd => h d (List.mem_append_left _ hd)
  have hsuf : ∀ d ∈ suf, 0 ≤ d := fun d hd => h d (List.mem_append_right _ hd)
  have c1 := runProgress_char pre 0 (by norm_num) hpre
  have c2 := runProgress_char (pre ++ suf) 0 (by norm_num) h
  have hsum : pre.sum ≤ (pre ++ suf).sum := by
    rw [List.sum_append]
    have := List.sum_nonneg hsuf
    linarith
  refine ⟨?_, ?_, ?_⟩
  · have := c1.1
    simpa [initialProgress] using this
  · have := c1.2
    simpa [initialProgress] using this
  · have e1 := c1.1
    have e2 := c2.1
    simp only [initialProgress] at e1 e2 ⊢
    rw [e1, e2]
    exact min_le_min (by linarith) le_rfl

theorem translation_progress_monotone_clamped_witness :
    (∀ d ∈ [(50 : ℚ), 30, 40], 0 ≤ d)
    ∧ ((runProgress initialProgress [(50 : ℚ), 30]).progress = min ([(50 : ℚ), 30]).sum 100
      ∧ ((runProgress initialProgress [(50 : ℚ), 30]).completed = true
          ↔ 100 ≤ ([(50 : ℚ), 30]).sum)
      ∧ (runProgress initialProgress [(50 : ℚ), 30]).progress
          ≤ (runProgress initialProgress [(50 : ℚ), 30, 40]).progress) :=
  ⟨by decide,
    translation_progress_monotone_clamped [(50 : ℚ), 30, 40] (by decide)
      [(50 : ℚ), 30] [40] rfl⟩

/-- Claim C2: a second start call while isProcessing is true is a rejected
no-op on all three managers: the state is returned unchanged and no
notification, job or queue entry is produced. -/
theorem single_flight_reentry_noop (b : BatchManagerState) (files : List UploadedFile)
    (t : TranslationManagerState) (hasF : Bool) (ds : List ℚ)
    (tr : TranscriptionManagerState) (hasF2 : Bool) (ds2 : List ℚ)
    (hb : b.isProcessing = true) (ht : t.isProcessing = true) (htr : tr.isProcessing = true) :
    processBatch b files = (b, [])
    ∧ startTranslation t hasF ds = (t, [])
    ∧ startTranscription tr hasF2 ds2 = (tr, []) := by
  refine ⟨?_, ?_, ?_⟩
  · simp [processBatch, hb]
  · simp [startTranslation, ht]
  · simp [startTranscription, htr]

theorem single_flight_reentry_noop_witness :
    ((⟨[], true⟩ : BatchManagerState).isProcessing = true
      ∧ (⟨["de"], true⟩ : TranslationManagerState).isProcessing = true
      ∧ (⟨true⟩ : TranscriptionManagerState).isProcessing = true)
    ∧ (processBatch ⟨[], true⟩ [⟨"a.mp3", 1000, "audio/mpeg"⟩] = (⟨[], true⟩, [])
      ∧ startTranslation ⟨["de"], true⟩ true [(50 : ℚ), 60] = (⟨["de"], true⟩, [])
      ∧ startTranscription ⟨true⟩ true [(50 : ℚ), 60] = (⟨true⟩, [])) :=
  ⟨⟨rfl, rfl, rfl⟩,
    single_flight_reentry_noop ⟨[], true⟩ [⟨"a.mp3", 1000, "audio/mpeg"⟩]
      ⟨["de"], true⟩ true [(50 : ℚ), 60] ⟨true⟩ true [(50 : ℚ), 60] rfl rfl rfl⟩

/-- Claim C9: toggling a present code removes it, toggling an absent code adds
it, the selection never contains duplicates, and toggling the same code twice
restores its original membership. -/
theorem toggle_membership_involution (s : List String) (c : String) (h : s.Nodup) :
    (toggleLanguage s c).Nodup
    ∧ (c ∈ s → c ∉ toggleLanguage s c)
    ∧ (c ∉ s → c ∈ toggleLanguage s c)
    ∧ (c ∈ toggleLanguage (toggleLanguage s c) c ↔ c ∈ s) := by
  by_cases hc : c ∈ s
  · have ht : toggleLanguage s c = s.erase c := by simp [toggleLanguage, hc]
    have hne : c ∉ s.erase c := h.not_mem_erase
    have ht2 : toggleLanguage (s.erase c) c = s.erase c ++ [c] := by
      simp [toggleLanguage, hne]
    refine ⟨?_, ?_, ?_, ?_⟩
    · rw [ht]; exact h.erase c
    · intro _; rw [ht]; exact hne
    · intro hcn; exact absurd hc hcn
    · rw [ht, ht2]
      simp [hc]
  · have ht : toggleLanguage s c = s ++ [c] := by simp [toggleLanguage, hc]
    have hnd : (s ++ [c]).Nodup := by
      rw [List.nodup_append]
      refine ⟨h, by simp, ?_⟩
      intro x hx hx2
      simp at hx2
      subst hx2
      exact hc hx
    have hmem : c ∈ s ++ [c] := by simp
    have ht2 : toggleLanguage (s ++ [c]) c = (s ++ [c]).erase c := by
      simp [toggleLanguage, hmem]
    refine ⟨?_, ?_, ?_, ?_⟩
    · rw [ht]; exact hnd
    · intro hcs; exact absurd hcs hc
    · intro _; rw [ht]; exact hmem
    · rw [ht, ht2]
      constructor
      · intro hin
        exact absurd hin hnd.not_mem_erase
      · intro hin
        exact absurd hin hc

theorem toggle_membership_involution_witness :
    (["de"] : List String).Nodup
    ∧ ((toggleLanguage ["de"] "fr").Nodup
      ∧ ("fr" ∈ (["de"] : List String) → "fr" ∉ toggleLanguage ["de"] "fr")
      ∧ ("fr" ∉ (["de"] : List String) → "fr" ∈ toggleLanguage ["de"] "fr")
      ∧ ("fr" ∈ toggleLanguage (toggleLanguage ["de"] "fr") "fr"
          ↔ "fr" ∈ (["de"] : List String))) :=
  ⟨by decide, toggle_membership_involution ["de"] "fr" (by decide)⟩

theorem applyBatchOp_currentBatch (s : BatchManagerState) (op : BatchOp)
    (h : s.currentBatch = []) : (applyBatchOp s op).currentBatch = [] := by
  cases op with
  | processBatch files =>
    by_cases h1 : s.isProcessing
      <;> by_cases h2 : files.isEmpty
      <;> simp [applyBatchOp, processBatch, h1, h2, h]
  | resetBatch => simp [applyBatchOp]
  | handleBatchDownload fmt => simpa [applyBatchOp] using h

/-- Claim C10: no operation ever populates currentBatch — processBatch runs a
whole batch without appending to it and resetBatch only re-empties it — so
after every sequence of operations getBatchSummary reports all-zero totals. -/
theorem current_batch_never_populated (ops : List BatchOp) :
    (runBatchOps ops).currentBatch = []
    ∧ getBatchSummary (runBatchOps ops) = ⟨0, 0, 0, 0⟩ := by
  have main : ∀ l : List BatchOp, ∀ s : BatchManagerState, s.currentBatch = [] →
      (l.foldl applyBatchOp s).currentBatch = [] := by
    intro l
    induction l with
    | nil => intro s hs; simpa using hs
    | cons op l ih => intro s hs; exact ih _ (applyBatchOp_currentBatch s op hs)
  have h1 : (runBatchOps ops).currentBatch = [] := main ops initialBatchManager rfl
  exact ⟨h1, by simp [getBatchSummary, h1]⟩

/-- Claim C5 counterexample: the 100 MB ceiling message is rendered with the
trailing zeros dropped by parseFloat, so a 120 MB file produces the error
text "File too large. Maximum size: 100 MB", not "... 100.00 MB". -/
theorem size_error_message_counterexample :
    (validateFile ⟨"video.mp3", 120 * 1024 * 1024, "audio/mpeg"⟩ allowedAudioTypes
        (100 * 1024 * 1024)).errors = ["File too large. Maximum size: 100 MB"]
    ∧ "File too large. Maximum size: 100.00 MB" ∉
        (validateFile ⟨"video.mp3", 120 * 1024 * 1024, "audio/mpeg"⟩ allowedAudioTypes
          (100 * 1024 * 1024)).errors := by
  constructor <;> decide

/-- Claim C5 as amended: an oversized file always fails validation with the
error "File too large. Maximum size: " followed by the base-1024 formatting
of the ceiling rounded to two decimals with trailing zeros dropped; the
104,857,600-byte ceiling formats as "100 MB". -/
theorem size_ceiling_error (file : UploadedFile) (allowed : List String) (maxSize : ℕ)
    (h : maxSize < file.size) :
    (validateFile file allowed maxSize).isValid = false
    ∧ ("File too large. Maximum size: " ++ formatFileSize maxSize)
        ∈ (validateFile file allowed maxSize).errors
    ∧ formatFileSize (100 * 1024 * 1024) = "100 MB" := by
  refine ⟨?_, ?_, by decide⟩
  · by_cases hct : allowed.contains file.type <;> simp [validateFile, h, hct]
  · by_cases hct : allowed.contains file.type <;> simp [validateFile, h, hct]

theorem size_ceiling_error_witness :
    (100 * 1024 * 1024 : ℕ) < 120 * 1024 * 1024
    ∧ ((validateFile ⟨"a.mp3", 120 * 1024 * 1024, "audio/mpeg"⟩ allowedAudioTypes
          (100 * 1024 * 1024)).isValid = false
      ∧ ("File too large. Maximum size: " ++ formatFileSize (100 * 1024 * 1024))
          ∈ (validateFile ⟨"a.mp3", 120 * 1024 * 1024, "audio/mpeg"⟩ allowedAudioTypes
              (100 * 1024 * 1024)).errors
      ∧ formatFileSize (100 * 1024 * 1024) = "100 MB") :=
  ⟨by norm_num,
    size_ceiling_error ⟨"a.mp3", 120 * 1024 * 1024, "audio/mpeg"⟩ allowedAudioTypes
      (100 * 1024 * 1024) (by norm_num)⟩

/-- Claim C6 counterexample: a one-file batch whose file exceeds the 50 MB
per-file ceiling fails validation (hasErrors is set), yet the batch selection
handler emits no notification event at all — the error text only reaches the
file-list markup. -/
theorem batch_validation_failure_silent :
    (handleBatchFileSelection [⟨"big.mp3", 60 * 1024 * 1024, "audio/mpeg"⟩]).1 = true
    ∧ (handleBatchFileSelection [⟨"big.mp3", 60 * 1024 * 1024, "audio/mpeg"⟩]).2 = [] := by
  constructor <;> decide

/-- Claim C6 as amended: in the single-file path every validation failure
reaches the notifier as one error event carrying the joined error texts, and
the error list is never empty; in the batch path a validation failure emits no
notification event — the errors are only rendered in the file-list markup and
the process button is disabled. -/
theorem validation_notification_paths (f : UploadedFile) (rest : List UploadedFile)
    (hinv : (validateFile f allowedAudioTypes (100 * 1024 * 1024)).isValid = false) :
    handleFileSelection (f :: rest)
      = [⟨String.intercalate ", "
            (validateFile f allowedAudioTypes (100 * 1024 * 1024)).errors, "error"⟩]
    ∧ (validateFile f allowedAudioTypes (100 * 1024 * 1024)).errors ≠ []
    ∧ ∀ gs : List UploadedFile,
        (handleBatchFileSelection gs).1 = true → (handleBatchFileSelection gs).2 = [] := by
  refine ⟨?_, ?_, ?_⟩
  · simp [handleFileSelection, hinv]
  · have h2 : (validateFile f allowedAudioTypes (100 * 1024 * 1024)).errors.isEmpty = false :=
      hinv
    intro hnil
    rw [hnil] at h2
    simp at h2
  · intro gs hg
    unfold handleBatchFileSelection at hg ⊢
    by_cases hge : gs.isEmpty
    · rw [if_pos hge] at hg
      simp at hg
    · rw [if_neg hge] at hg ⊢
      have hb : batchSelectionHasErrors gs = true := hg
      simp [hb]

theorem validation_notification_paths_witness :
    (validateFile ⟨"big.mp3", 120 * 1024 * 1024, "audio/mpeg"⟩ allowedAudioTypes
        (100 * 1024 * 1024)).isValid = false
    ∧ (handleFileSelection [⟨"big.mp3", 120 * 1024 * 1024, "audio/mpeg"⟩]
        = [⟨String.intercalate ", "
              (validateFile ⟨"big.mp3", 120 * 1024 * 1024, "audio/mpeg"⟩ allowedAudioTypes
                (100 * 1024 * 1024)).errors, "error"⟩]
      ∧ (validateFile ⟨"big.mp3", 120 * 1024 * 1024, "audio/mpeg"⟩ allowedAudioTypes
          (100 * 1024 * 1024)).errors ≠ []
      ∧ ∀ gs : List UploadedFile,
          (handleBatchFileSelection gs).1 = true → (handleBatchFileSelection gs).2 = []) :=
  ⟨by decide,
    validation_notification_paths ⟨"big.mp3", 120 * 1024 * 1024, "audio/mpeg"⟩ [] (by decide)⟩

/-- Claim C7 counterexample: the download click handler reads the player's
data-language attribute, which createTranslationOutput fills with the
lowercased display name, so the selected code de yields the filename
translation_german.mp3 rather than translation_de.mp3. -/
theorem translation_filename_counterexample :
    translationFilenameForCode "de" "mp3" = "translation_german.mp3"
    ∧ translationFilenameForCode "de" "mp3" ≠ "translation_de.mp3" := by
  constructor <;> decide

/-- Claim C7 as amended: artifact filenames are deterministically derived as
operation_languagePart.format, where the translation language part is the
lowercased display name of the selected code (not the code itself),
transcription downloads omit the language part, and distinct known codes
yield distinct language parts, so repeated downloads for the same job produce
identical names and different languages never collide. -/
theorem artifact_filename_convention (code fmt : String) (h : code ∈ knownLanguageCodes) :
    translationFilenameForCode code fmt
      = "translation_" ++ audioPlayerLanguage (getLanguageData code) ++ "." ++ fmt
    ∧ transcriptionDownloadFilename fmt = "transcription." ++ fmt
    ∧ ∀ c2 ∈ knownLanguageCodes,
        audioPlayerLanguage (getLanguageData c2) = audioPlayerLanguage (getLanguageData code)
          → c2 = code := by
  refine ⟨rfl, rfl, ?_⟩
  fin_cases h <;> decide

theorem artifact_filename_convention_witness :
    "de" ∈ knownLanguageCodes
    ∧ (translationFilenameForCode "de" "mp3"
        = "translation_" ++ audioPlayerLanguage (getLanguageData "de") ++ "." ++ "mp3"
      ∧ transcriptionDownloadFilename "mp3" = "transcription." ++ "mp3"
      ∧ ∀ c2 ∈ knownLanguageCodes,
          audioPlayerLanguage (getLanguageData c2) = audioPlayerLanguage (getLanguageData "de")
            → c2 = "de") :=
  ⟨by decide, artifact_filename_convention "de" "mp3" (by decide)⟩

theorem knownNames_injective :
    ∀ c1 ∈ knownLanguageCodes, ∀ c2 ∈ knownLanguageCodes,
      audioPlayerLanguage (getLanguageData c1) = audioPlayerLanguage (getLanguageData c2)
        → c1 = c2 := by decide

/-- Claim C8: for a translate run over N distinct known codes, the rendered
download grid holds exactly N times the size of the fixed format set
(mp3, wav, srt) artifacts, each with a distinct (language, format) pair; for
the codes de and fr this is exactly 6. -/
theorem translation_artifact_grid :
    ∀ selected : List String, selected.Nodup → (∀ c ∈ selected, c ∈ knownLanguageCodes) →
      (translationArtifacts selected).length = selected.length * translationFormats.length
      ∧ (translationArtifacts selected).Nodup := by
  intro selected
  induction selected with
  | nil =>
    intro _ _
    exact ⟨by simp [translationArtifacts], by simp [translationArtifacts]⟩
  | cons c rest ih =>
    intro h1 h2
    have hc : c ∈ knownLanguageCodes := h2 c (by simp)
    have hrest : ∀ x ∈ rest, x ∈ knownLanguageCodes := fun x hx => h2 x (by simp [hx])
    rw [List.nodup_cons] at h1
    obtain ⟨hcr, hndr⟩ := h1
    obtain ⟨ihlen, ihnd⟩ := ih hndr hrest
    have hunfold : translationArtifacts (c :: rest)
        = (translationFormats.map fun fmt => (audioPlayerLanguage (getLanguageData c), fmt))
          ++ translationArtifacts rest := by
      simp [translationArtifacts]
    constructor
    · rw [hunfold, List.length_append, List.length_map, ihlen, List.length_cons]
      ring
    · rw [hunfold, List.nodup_append]
      refine ⟨?_, ihnd, ?_⟩
      · refine List.Nodup.map ?_ (by decide)
        intro a b hab
        exact congrArg Prod.snd hab
      · intro x hx1 hx2
        obtain ⟨fmt, _, hfx⟩ := List.mem_map.mp hx1
        obtain ⟨c2, hc2, hx2m⟩ := List.mem_flatMap.mp hx2
        obtain ⟨fmt2, _, hfx2⟩ := List.mem_map.mp hx2m
        have hname : audioPlayerLanguage (getLanguageData c2)
            = audioPlayerLanguage (getLanguageData c) := by
          have := hfx ▸ hfx2
          exact congrArg Prod.fst this
        have hcc : c2 = c := knownNames_injective c2 (hrest c2 hc2) c hc hname
        exact hcr (hcc ▸ hc2)

theorem translation_artifact_grid_witness :
    ((["de", "fr"] : List String).Nodup
      ∧ ∀ c ∈ (["de", "fr"] : List String), c ∈ knownLanguageCodes)
    ∧ ((translationArtifacts ["de", "fr"]).length
        = (["de", "fr"] : List String).length * translationFormats.length
      ∧ (translationArtifacts ["de", "fr"]).Nodup) :=
  ⟨⟨by decide, by decide⟩, translation_artifact_grid ["de", "fr"] (by decide) (by decide)⟩

theorem batchStep_stuck (N : ℕ) (hN : 1 ≤ N) (p : ℚ) (r : ℚ) (hr0 : 0 ≤ r) (hr20 : r < 20) :
    batchSimStep N ⟨p, 0, false⟩ r = ⟨batchTickProgress (min N 10) 0 r, 0, false⟩ := by
  have hfp1 : 1 ≤ min N 10 := le_min hN (by norm_num)
  have hfpq : (1 : ℚ) ≤ (min N 10 : ℕ) := by exact_mod_cast hfp1
  have hq0 : (0 : ℚ) ≤ 100 / ((min N 10 : ℕ) : ℚ) := by positivity
  have hq100 : 100 / ((min N 10 : ℕ) : ℚ) ≤ 100 := div_le_self (by norm_num) hfpq
  have hprog : batchTickProgress (min N 10) 0 r < 100 := by
    unfold batchTickProgress
    rw [Nat.cast_zero, zero_mul, zero_add]
    have h1 : r * (100 / ((min N 10 : ℕ) : ℚ)) ≤ r * 100 :=
      mul_le_mul_of_nonneg_left hq100 hr0
    nlinarith
  have hadv : ¬(95 ≤ r ∧ (0 : ℕ) < min N 10 - 1) := by
    intro hcontra
    linarith [hcontra.1]
  unfold batchSimStep
  simp only [Bool.false_eq_true, if_false]
  rw [if_neg hadv, if_neg (not_le.mpr hprog)]

/-- Claim C1 (code bug): a batch run never terminates.  Every
Math.random() * 20 draw is below 20, so the pointer-advance condition
(fileProgress ≥ 95) and the completion condition (progress ≥ 100) are
unreachable: after any finite sequence of ticks the promise is unresolved
(done = false), no file has been passed (currentFile = 0), and therefore
isProcessing is never reset and no batch result is emitted. -/
theorem batch_sim_never_resolves (N : ℕ) (rs : List ℚ) (hN : 1 ≤ N)
    (hr : ∀ r ∈ rs, 0 ≤ r ∧ r < 20) :
    (batchSimRun N initialBatchSim rs).done = false
    ∧ (batchSimRun N initialBatchSim rs).currentFile = 0 := by
  have main : ∀ l : List ℚ, (∀ r ∈ l, 0 ≤ r ∧ r < 20) → ∀ p : ℚ,
      (batchSimRun N ⟨p, 0, false⟩ l).done = false
      ∧ (batchSimRun N ⟨p, 0, false⟩ l).currentFile = 0 := by
    intro l
    induction l with
    | nil => intro _ p; exact ⟨rfl, rfl⟩
    | cons r l ih =>
      intro hl p
      have h0 := hl r (by simp)
      have hstep := batchStep_stuck N hN p r h0.1 h0.2
      have hrun : batchSimRun N ⟨p, 0, false⟩ (r :: l)
          = batchSimRun N ⟨batchTickProgress (min N 10) 0 r, 0, false⟩ l := by
        calc batchSimRun N ⟨p, 0, false⟩ (r :: l)
            = batchSimRun N (batchSimStep N ⟨p, 0, false⟩ r) l := rfl
        _ = batchSimRun N ⟨batchTickProgress (min N 10) 0 r, 0, false⟩ l := by rw [hstep]
      rw [hrun]
      exact ih (fun x hx => hl x (by simp [hx])) _
  have h := main rs hr 0
  exact ⟨h.1, h.2⟩

theorem batch_sim_never_resolves_witness :
    (1 ≤ 2 ∧ ∀ r ∈ [(10 : ℚ), 15, 19], 0 ≤ r ∧ r < 20)
    ∧ ((batchSimRun 2 initialBatchSim [(10 : ℚ), 15, 19]).done = false
      ∧ (batchSimRun 2 initialBatchSim [(10 : ℚ), 15, 19]).currentFile = 0) :=
  ⟨⟨by norm_num, by decide⟩,
    batch_sim_never_resolves 2 [(10 : ℚ), 15, 19] (by norm_num) (by decide)⟩

/-- Claim C4: on every tick the computed aggregate equals
(completedFilesCount / N) * 100 + (currentFileProgress / N), lies in
[0, 100], and equals 100 exactly when the pointer is on the last file and its
progress is 100, i.e. only when every file is terminal. -/
theorem aggregate_progress_share (N completed : ℕ) (fp : ℚ) (h1 : 1 ≤ N) (h10 : N ≤ 10)
    (hc : completed < N) (hf0 : 0 ≤ fp) (hf1 : fp ≤ 100) :
    batchTickProgress (min N 10) completed fp
      = ((completed : ℚ) / (N : ℚ)) * 100 + fp / (N : ℚ)
    ∧ 0 ≤ batchTickProgress (min N 10) completed fp
    ∧ batchTickProgress (min N 10) completed fp ≤ 100
    ∧ (batchTickProgress (min N 10) completed fp = 100 ↔ completed = N - 1 ∧ fp = 100) := by
  have hmin : min N 10 = N := min_eq_left h10
  rw [hmin]
  have hN0 : (0 : ℚ) < (N : ℚ) := by exact_mod_cast Nat.lt_of_lt_of_le Nat.zero_lt_one h1
  have hNne : (N : ℚ) ≠ 0 := ne_of_gt hN0
  have hcle : (completed : ℚ) ≤ (N : ℚ) - 1 := by
    have hnat : completed + 1 ≤ N := hc
    have hq : ((completed : ℚ) + 1) ≤ (N : ℚ) := by exact_mod_cast hnat
    linarith
  have hc0 : (0 : ℚ) ≤ (completed : ℚ) := Nat.cast_nonneg _
  have hform : batchTickProgress N completed fp = (100 * (completed : ℚ) + fp) / (N : ℚ) := by
    unfold batchTickProgress
    field_simp
    ring
  refine ⟨?_, ?_, ?_, ?_⟩
  · rw [hform]
    field_simp
    ring
  · rw [hform]
    apply div_nonneg _ (le_of_lt hN0)
    linarith
  · rw [hform, div_le_iff₀ hN0]
    nlinarith
  · rw [hform]
    constructor
    · intro h
      rw [div_eq_iff hNne] at h
      have hfp100 : fp = 100 := by nlinarith
      have hcN : (completed : ℚ) = (N : ℚ) - 1 := by nlinarith
      refine ⟨?_, hfp100⟩
      have hq : (completed : ℚ) + 1 = (N : ℚ) := by linarith
      have hnat : completed + 1 = N := by exact_mod_cast hq
      omega
    · rintro ⟨hcn, hfp⟩
      subst hfp
      subst hcn
      have hcast : (((N - 1 : ℕ)) : ℚ) = (N : ℚ) - 1 := by
        rw [Nat.cast_sub h1]
        norm_num
      rw [hcast]
      field_simp
      ring

theorem aggregate_progress_share_witness :
    (1 ≤ 4 ∧ 4 ≤ 10 ∧ 1 < 4 ∧ (0 : ℚ) ≤ 50 ∧ (50 : ℚ) ≤ 100)
    ∧ (batchTickProgress (min 4 10) 1 50
        = (((1 : ℕ) : ℚ) / ((4 : ℕ) : ℚ)) * 100 + 50 / ((4 : ℕ) : ℚ)
      ∧ 0 ≤ batchTickProgress (min 4 10) 1 50
      ∧ batchTickProgress (min 4 10) 1 50 ≤ 100
      ∧ (batchTickProgress (min 4 10) 1 50 = 100 ↔ (1 : ℕ) = 4 - 1 ∧ (50 : ℚ) = 100)) :=
  ⟨⟨by norm_num, by norm_num, by norm_num, by norm_num, by norm_num⟩,
    aggregate_progress_share 4 1 50 (by norm_num) (by norm_num) (by norm_num) (by norm_num)
      (by norm_num)⟩

end VoiceTools
